import Mathlib

/-
Verification of the funcho contract-first HTTP routing layer.

Shallow embedding of the canonical contract + router + handler pipeline:
  - src/src/router.ts      (compilePattern, compileContract, matchRoute, isRouteMatch)
  - src/src/handler.ts     (parsePath, parseQuery, parseHeaders, parseBody,
                            serializeTypedResponse, createRespondFn,
                            matchContractFailure, defaultFormatError,
                            handleRequest, FetchHandler.from)
  - src/src/contract.ts    (RouteDefinition, TypedResponse, createTypedResponse)
  - src/src/schema.ts      (ResponseSchema, ResponseUnion, getResponseSchemas,
                            getDefaultStatus, isStreamBody)
  - src/src/errors.ts      (ValidationError, NotFoundError, MethodNotAllowedError)

External collaborators are modelled at their interface, exactly as the spec
scopes them: a schema is an opaque validator Json -> Except Json Json; the
platform JSON parser is an explicit function argument; the effect runtime is
modelled by explicit Except-passing (a user-supplied formatError is a plain
function that may raise, since the source calls it without any try/catch).
-/

namespace Funcho

/-- JSON values, the data carried by request and response bodies. -/
inductive Json where
  | null
  | bool (b : Bool)
  | num (n : Int)
  | str (s : String)
  | arr (xs : List Json)
  | obj (fields : List (String × Json))

/-- A JavaScript value as it appears in a TypedResponse body or header slot:
`undefined`, an ordinary JSON-serializable value, or a ReadableStream. -/
inductive JsVal where
  | undef
  | json (j : Json)
  | stream

/-- An opaque validator supplied by the schema engine: given a raw value it
returns the decoded value or a structured issue.  This is the
`decode(schema, rawValue) -> Result` capability surface of the spec. -/
def Sch : Type := Json → Except Json Json

/-- Runtime identity of the body slot of a ResponseSchema.  The dispatcher
consults it in exactly one place: `matchContractFailure` casts it to an error
class constructor and performs an `instanceof` test, so only class identity is
observable.  The three dispatcher-owned error classes are distinguished
constructors; user-defined Schema.ErrorClass classes are numbered; plain
non-class body schemas (success bodies are never re-validated at runtime)
are opaque references. -/
inductive SchemaId where
  | validationErrorClass
  | notFoundErrorClass
  | methodNotAllowedErrorClass
  | classId (n : Nat)
  | opaqueSchema (n : Nat)
deriving DecidableEq

/-- ResponseSchema from src/src/schema.ts: a (body, status, headers) triple.
Declared header schemas are opaque references; the dispatcher never reads
them (matchContractFailure passes an empty headers record). -/
structure ResponseSchema where
  body : SchemaId
  status : Nat
  headers : List (String × Nat) := []

/-- AnyResponseSchema = ResponseSchema | ResponseUnion. -/
inductive AnyResponseSchema where
  | single (r : ResponseSchema)
  | union (responses : List ResponseSchema)

/-- getResponseSchemas from src/src/schema.ts. -/
def getResponseSchemas : AnyResponseSchema → List ResponseSchema
  | .single r => [r]
  | .union rs => rs

/-- getDefaultStatus from src/src/schema.ts: first member of a union
(200 when the union is empty), or the status of a plain schema. -/
def getDefaultStatus : AnyResponseSchema → Nat
  | .single r => r.status
  | .union rs => match rs.head? with
      | some r => r.status
      | none => 200

/-- The request body schema slot.  `isStreamBody` in src/src/schema.ts
recognizes the StreamBody marker by identity (also inside a union); the
embedding keeps the observable tag only, as the spec itself recommends. -/
inductive BodySchema where
  | stream
  | sch (s : Sch)

/-- isStreamBody from src/src/schema.ts, on the embedded body-schema tag. -/
def isStreamBody : BodySchema → Bool
  | .stream => true
  | .sch _ => false

/-- RouteDefinition from src/src/contract.ts.  Schema maps are association
lists in declaration order (Object.entries order). -/
structure RouteDefinition where
  description : Option String := none
  path : Option (List (String × Sch)) := none
  query : Option (List (String × Sch)) := none
  headers : Option (List (String × Sch)) := none
  body : Option BodySchema := none
  success : AnyResponseSchema
  failure : Option AnyResponseSchema := none

/-- An error value travelling on the failure channel.  The three
dispatcher-owned Schema.ErrorClass classes from src/src/errors.ts appear with
their fields; any other object error is an instance of some user class
carrying its serializable own fields; `primitive` is a thrown non-object
value (for which `typeof error !== "object"`). -/
inductive ErrVal where
  | validation (message : String) (issues : List Json)
  | notFound (message : String)
  | methodNotAllowed (message : String) (allowed : List String)
  | instObj (classId : Nat) (fields : List (String × Json))
  | primitive (v : Json)

/-- The `error instanceof ErrorConstructor` test of matchContractFailure,
where the constructor is the body slot of a declared failure member.
Class identity decides it (the error classes in play do not subclass
one another). -/
def isInst : ErrVal → SchemaId → Bool
  | .validation _ _, .validationErrorClass => true
  | .notFound _, .notFoundErrorClass => true
  | .methodNotAllowed _ _, .methodNotAllowedErrorClass => true
  | .instObj c _, .classId n => c == n
  | _, _ => false

/-- The `!error || typeof error !== "object"` guard of matchContractFailure:
only object errors can be instances. -/
def isObjectErr : ErrVal → Bool
  | .primitive _ => false
  | _ => true

/-- JSON.stringify of an error value: a Schema.ErrorClass instance
serializes to its own enumerable fields. -/
def errToJson : ErrVal → Json
  | .validation message issues => .obj [("message", .str message), ("issues", .arr issues)]
  | .notFound message => .obj [("message", .str message)]
  | .methodNotAllowed message allowed =>
      .obj [("message", .str message), ("allowed", .arr (allowed.map .str))]
  | .instObj _ fields => .obj fields
  | .primitive v => v

/-- TypedResponse from src/src/contract.ts: the normalized
`{ body, status, headers }` success outcome (the __brand discriminant is the
constructor itself). -/
structure TypedResponse where
  body : JsVal
  status : Nat
  headers : List (String × JsVal)

/-- createTypedResponse from src/src/contract.ts. -/
def createTypedResponse (body : JsVal) (status : Nat)
    (headers : List (String × JsVal)) : TypedResponse :=
  ⟨body, status, headers⟩

/-- ErrorResponse from src/src/handler.ts: what a formatter returns. -/
structure ErrorResponse where
  status : Nat
  body : Json

/-- The body of a wire Response: empty (null body), a JSON document, or a
byte stream. -/
inductive WireBody where
  | empty
  | json (j : Json)
  | stream

/-- A wire Response: status, header map (keys normalized to lower case, as
the Headers class does), body. -/
structure WireResponse where
  status : Nat
  headers : List (String × String)
  body : WireBody

/-- String.prototype.toLowerCase, character by character. -/
def toLowerStr (s : String) : String := String.mk (s.data.map Char.toLower)

/-- Headers.set: case-insensitive replace-or-append, storing the key in
lower case. -/
def hset (m : List (String × String)) (key value : String) :
    List (String × String) :=
  let k := toLowerStr key
  if m.any (fun p => p.1 == k) then
    m.map (fun p => if p.1 == k then (k, value) else p)
  else
    m ++ [(k, value)]

/-- Headers.has, case-insensitive. -/
def hhas (m : List (String × String)) (key : String) : Bool :=
  m.any (fun p => p.1 == toLowerStr key)

/-- Headers.get, case-insensitive. -/
def hget (m : List (String × String)) (key : String) : Option String :=
  (m.find? (fun p => p.1 == toLowerStr key)).map (fun p => p.2)

/-- JavaScript String() conversion on a JSON value, for header
stringification. -/
def jsStringJ : Json → String
  | .null => "null"
  | .bool b => if b then "true" else "false"
  | .num n => toString n
  | .str s => s
  | .arr xs => String.intercalate "," (xs.attach.map (fun x => jsStringJ x.1))
  | .obj _ => "[object Object]"
decreasing_by
  have h := List.sizeOf_lt_of_mem x.2
  simp only [Json.arr.sizeOf_spec] at *
  omega

/-- JavaScript String() conversion on a TypedResponse header slot value. -/
def jsString : JsVal → String
  | .undef => "undefined"
  | .json j => jsStringJ j
  | .stream => "[object ReadableStream]"

/-- One entry of the header-building loop of serializeTypedResponse:
an undefined or null value is skipped, any other value is stringified and
set. -/
def buildHeaderStep (m : List (String × String)) (kv : String × JsVal) :
    List (String × String) :=
  match kv.2 with
  | .undef => m
  | .json .null => m
  | v => hset m kv.1 (jsString v)

/-- The header-building loop of serializeTypedResponse. -/
def buildResponseHeaders (entries : List (String × JsVal)) :
    List (String × String) :=
  entries.foldl buildHeaderStep []

/-- serializeTypedResponse from src/src/handler.ts. -/
def serializeTypedResponse (typed : TypedResponse) : WireResponse :=
  let responseHeaders := buildResponseHeaders typed.headers
  match typed.body with
  | .undef => ⟨typed.status, responseHeaders, .empty⟩
  | .json .null => ⟨typed.status, responseHeaders, .empty⟩
  | .stream =>
      let h :=
        if hhas responseHeaders "Content-Type" then responseHeaders
        else hset responseHeaders "Content-Type" "application/octet-stream"
      ⟨typed.status, h, .stream⟩
  | .json j =>
      let h :=
        if hhas responseHeaders "Content-Type" then responseHeaders
        else hset responseHeaders "Content-Type" "application/json"
      ⟨typed.status, h, .json j⟩

/-- The generic 500 body of defaultFormatError. -/
def internalErrorBody : Json :=
  .obj [("error", .str "InternalServerError"),
        ("message", .str "An unexpected error occurred")]

/-- defaultFormatError from src/src/handler.ts: the three instanceof tests
on the dispatcher-owned error classes, then the generic 500 fallback. -/
def defaultFormatError : ErrVal → ErrorResponse
  | .validation message issues =>
      ⟨400, .obj [("error", .str "ValidationError"),
                  ("message", .str message),
                  ("issues", .arr issues)]⟩
  | .notFound message =>
      ⟨404, .obj [("error", .str "NotFoundError"),
                  ("message", .str message)]⟩
  | .methodNotAllowed message allowed =>
      ⟨405, .obj [("error", .str "MethodNotAllowedError"),
                  ("message", .str message),
                  ("allowed", .arr (allowed.map .str))]⟩
  | .instObj _ _ => ⟨500, internalErrorBody⟩
  | .primitive _ => ⟨500, internalErrorBody⟩

/-! ## Path pattern compiler (src/src/router.ts)

`compilePattern` does
`pattern.replace(/\x7b([^\x7d]+)\x7d/g, (_, name) => "(?<" + name + ">[^/]+)")`
and wraps the result in `new RegExp("^" + regexPattern + "$")`.  The
embedding keeps the compiled regex as its token list: the pattern text split
at every `\x7bname\x7d` placeholder, literal stretches alternating with
named `[^/]+` capture groups.  Matching gives the literal stretches
JavaScript regex semantics: within a literal stretch an (unescaped) `.`
matches any character, every other character only itself.  This is faithful
for patterns whose literal text contains no regex metacharacter other than
the dot; all patterns considered below are of that shape. -/

/-- Left brace character (0x7b). -/
def lbrace : Char := Char.ofNat 123

/-- Right brace character (0x7d). -/
def rbrace : Char := Char.ofNat 125

/-- A piece of a compiled pattern: a literal stretch of the pattern text, or
a named capture group standing for one placeholder. -/
inductive Tok where
  | lit (chars : List Char)
  | param (name : String)

/-- Lexer state while replaying the global-replace pass of compilePattern:
tokens already produced (reversed), pending literal characters (reversed),
and, when inside a candidate placeholder, the characters read since the
opening brace (reversed). -/
structure LexSt where
  toksRev : List Tok
  litRev : List Char
  braceRev : Option (List Char)

/-- Flush the pending literal characters into a token. -/
def flushLit (st : LexSt) : List Tok :=
  match st.litRev with
  | [] => st.toksRev
  | l => .lit l.reverse :: st.toksRev

/-- One character of the placeholder scan.  A placeholder is a `\x7b`,
one or more characters none of which is `\x7d`, then `\x7d` — exactly the
matches of the global regex in compilePattern; everything else is literal
text. -/
def lexStep (st : LexSt) (c : Char) : LexSt :=
  match st.braceRev with
  | some acc =>
      if c = rbrace then
        if acc.isEmpty then
          -- "\x7b\x7d" has no placeholder body: both braces are literal
          { toksRev := st.toksRev, litRev := rbrace :: lbrace :: st.litRev,
            braceRev := none }
        else
          { toksRev := .param (String.mk acc.reverse) :: flushLit st,
            litRev := [], braceRev := none }
      else
        { st with braceRev := some (c :: acc) }
  | none =>
      if c = lbrace then { st with braceRev := some [] }
      else { st with litRev := c :: st.litRev }

/-- End of input: an unclosed `\x7b...` stays literal. -/
def lexFinish (st : LexSt) : List Tok :=
  match st.braceRev with
  | some acc =>
      (flushLit { st with litRev := acc ++ lbrace :: st.litRev,
                          braceRev := none }).reverse
  | none => (flushLit st).reverse

/-- The placeholder-splitting pass of compilePattern, as a token list. -/
def lexPattern (pattern : String) : List Tok :=
  lexFinish (pattern.data.foldl lexStep ⟨[], [], none⟩)

/-- Consume a literal stretch from the head of the subject, JavaScript
regex semantics: `.` matches any character, other characters themselves. -/
def litConsume : List Char → List Char → Option (List Char)
  | [], s => some s
  | _ :: _, [] => none
  | c :: l, d :: s => if c = '.' ∨ c = d then litConsume l s else none

/-- All ways a `[^/]+` group can split the subject: (captured, rest) pairs
in order of increasing capture length (capture length at least one, no `/`
captured). -/
def paramSplits : List Char → List (List Char × List Char)
  | [] => []
  | c :: s =>
      if c = '/' then []
      else ([c], s) :: (paramSplits s).map (fun p => (c :: p.1, p.2))

/-- Anchored match of a compiled pattern against a path, returning the
named captures (regex exec + match.groups).  Greedy `[^/]+` groups try the
longest capture first, as the JavaScript engine does. -/
def matchCap : List Tok → List Char → Option (List (String × String))
  | [], s => if s.isEmpty then some [] else none
  | .lit l :: rest, s =>
      match litConsume l s with
      | some s2 => matchCap rest s2
      | none => none
  | .param n :: rest, s =>
      (paramSplits s).reverse.findSome?
        (fun p => (matchCap rest p.2).map
          (fun ps => (n, String.mk p.1) :: ps))

/-- regex.exec(pathname): the anchored match with named captures. -/
def regexExec (toks : List Tok) (pathname : String) :
    Option (List (String × String)) :=
  matchCap toks pathname.data

/-- CompiledRoute from src/src/router.ts.  `toks` stands for the compiled
regex, `definitions` is the method-to-definition record in declaration
order. -/
structure CompiledRoute where
  pattern : String
  toks : List Tok
  paramNames : List String
  methods : List String
  definitions : List (String × RouteDefinition)

/-- First-match lookup in an association list (exact key). -/
def lookupFirst {α : Type} (l : List (String × α)) (key : String) : Option α :=
  (l.find? (fun p => p.1 == key)).map (fun p => p.2)

/-- The parameter names collected by the replace pass of compilePattern. -/
def toksParamNames (toks : List Tok) : List String :=
  toks.filterMap (fun t => match t with | .param n => some n | .lit _ => none)

/-- compilePattern from src/src/router.ts. -/
def compilePattern (pattern : String) : List Tok × List String :=
  let toks := lexPattern pattern
  (toks, toksParamNames toks)

/-- A contract: path pattern to method record, in declaration order
(Object.entries order). -/
def Contract : Type := List (String × List (String × RouteDefinition))

/-- compileContract from src/src/router.ts. -/
def compileContract (contract : Contract) : List CompiledRoute :=
  contract.map (fun pm =>
    let compiled := compilePattern pm.1
    { pattern := pm.1, toks := compiled.1, paramNames := compiled.2,
      methods := pm.2.map (fun kv => kv.1), definitions := pm.2 })

/-- RouteMatch from src/src/router.ts. -/
structure RouteMatch where
  route : CompiledRoute
  method : String
  definition : RouteDefinition
  params : List (String × String)

/-- The result of matchRoute: a RouteMatch, or
`{ matched: false, allowedMethods? }`. -/
inductive MatchResult where
  | found (m : RouteMatch)
  | noMatch (allowedMethods : Option (List String))

/-- The route-scanning loop of matchRoute: first route whose regex accepts
the path wins; a path match without a definition for the method stops the
scan with the method list of that route. -/
def matchRouteGo (pathname normalizedMethod : String) :
    List CompiledRoute → MatchResult
  | [] => .noMatch none
  | route :: rest =>
      match regexExec route.toks pathname with
      | some params =>
          match lookupFirst route.definitions normalizedMethod with
          | some definition =>
              .found ⟨route, normalizedMethod, definition, params⟩
          | none => .noMatch (some route.methods)
      | none => matchRouteGo pathname normalizedMethod rest

/-- matchRoute from src/src/router.ts (method compared lower-cased). -/
def matchRoute (routes : List CompiledRoute) (pathname method : String) :
    MatchResult :=
  matchRouteGo pathname (toLowerStr method) routes

/-- isRouteMatch from src/src/router.ts. -/
def isRouteMatch : MatchResult → Bool
  | .found _ => true
  | .noMatch _ => false

/-! ## Request decoding and dispatch (src/src/handler.ts)

The per-request pipeline.  The platform JSON parser is an explicit function
argument (it is external to the repository); a request carries its parsed
URL parts, its body text and — when the caller attached one — a body
stream together with the lock state of that stream.  The effect runtime is
replayed by explicit result passing: the decode channels are combined exactly
as Effect.all combines them (first failure, in the listed channel order),
the onExit finalizer becomes the stream-cancellation computation, and
Effect.catch becomes the case split on the failed execution. -/

/-- The value bound to `body` in the handler context. -/
inductive BodyVal where
  | undef
  | jsonv (j : Json)
  | stream
  | nullv

/-- An incoming request: URL path, method, query entries, headers, the text
of the body, and the body stream when one is attached (`some locked` records
whether the caller already locked it). -/
structure Request where
  path : String
  method : String
  query : List (String × String) := []
  headers : List (String × String) := []
  bodyText : String := ""
  bodyStream : Option Bool := none

/-- decodeSchema from src/src/handler.ts: run the schema engine, wrapping a
failure into a ValidationError with the channel-specific message. -/
def decodeSchemaE (schema : Sch) (value : Json) (errorMessage : String) :
    Except ErrVal Json :=
  match schema value with
  | .ok v => .ok v
  | .error issue => .error (.validation errorMessage [issue])

/-- parseQuery from src/src/handler.ts: decode each declared query
parameter present in the URL (absent parameters are omitted). -/
def parseQuery (query : List (String × String))
    (definition : RouteDefinition) :
    Except ErrVal (List (String × Json)) :=
  match definition.query with
  | none => .ok []
  | some qs =>
      qs.foldlM
        (fun acc kv =>
          match lookupFirst query kv.1 with
          | some raw => do
              let v ← decodeSchemaE kv.2 (.str raw)
                ("Invalid query parameter: " ++ kv.1)
              pure (acc ++ [(kv.1, v)])
          | none => pure acc)
        []

/-- Headers.get, case-insensitive, on raw request headers. -/
def headersGet (headers : List (String × String)) (key : String) :
    Option String :=
  (headers.find? (fun p => toLowerStr p.1 == toLowerStr key)).map (fun p => p.2)

/-- parseHeaders from src/src/handler.ts. -/
def parseHeaders (headers : List (String × String))
    (definition : RouteDefinition) :
    Except ErrVal (List (String × Json)) :=
  match definition.headers with
  | none => .ok []
  | some hs =>
      hs.foldlM
        (fun acc kv =>
          match headersGet headers kv.1 with
          | some raw => do
              let v ← decodeSchemaE kv.2 (.str raw)
                ("Invalid header: " ++ kv.1)
              pure (acc ++ [(kv.1, v)])
          | none => pure acc)
        []

/-- parsePath from src/src/handler.ts: with no declared path schemas the
raw captured parameters pass through unchanged; otherwise each declared
parameter present in the match is validated — on the raw captured
substring, with no percent-decoding anywhere. -/
def parsePath (params : List (String × String))
    (definition : RouteDefinition) :
    Except ErrVal (List (String × Json)) :=
  match definition.path with
  | none => .ok (params.map (fun p => (p.1, .str p.2)))
  | some ps =>
      ps.foldlM
        (fun acc kv =>
          match lookupFirst params kv.1 with
          | some raw => do
              let v ← decodeSchemaE kv.2 (.str raw)
                ("Invalid path parameter: " ++ kv.1)
              pure (acc ++ [(kv.1, v)])
          | none => pure acc)
        []

/-- parseBody from src/src/handler.ts: no declared schema means undefined;
the stream marker passes `request.body ?? null` through untouched; otherwise
the body text is read — empty text is undefined, non-empty text is parsed
as JSON (parse failure is its own validation error) and the parsed value is
validated against the schema. -/
def parseBody (jsonParse : String → Option Json) (request : Request)
    (definition : RouteDefinition) : Except ErrVal BodyVal :=
  match definition.body with
  | none => .ok .undef
  | some .stream =>
      .ok (match request.bodyStream with
           | some _ => .stream
           | none => .nullv)
  | some (.sch schema) =>
      let text := request.bodyText
      if text.isEmpty then .ok .undef
      else
        match jsonParse text with
        | none => .error (.validation "Invalid JSON body" [])
        | some json =>
            (decodeSchemaE schema json "Invalid request body").map .jsonv

/-- createRespondFn from src/src/handler.ts: the bound respond helper,
defaulting the status to the success descriptor default and the headers to
the empty record. -/
def createRespondFn (definition : RouteDefinition) :
    JsVal → Option Nat → Option (List (String × JsVal)) → TypedResponse :=
  let defaultStatus := getDefaultStatus definition.success
  fun body status? headers? =>
    createTypedResponse body (status?.getD defaultStatus) (headers?.getD [])

/-- The context handed to a route handler. -/
structure Ctx where
  path : List (String × Json)
  query : List (String × Json)
  headers : List (String × Json)
  body : BodyVal
  respond : JsVal → Option Nat → Option (List (String × JsVal)) → TypedResponse

/-- What a handler hands back on success: a TypedResponse (the
isTypedResponse branch) or any plain JSON-serializable value. -/
inductive HandlerRet where
  | typedResponse (t : TypedResponse)
  | plain (v : Json)

/-- The observable outcome of running a handler: its result and whether it
left the request body stream locked (consumed / handed off). -/
structure HandlerOutcome where
  result : Except ErrVal HandlerRet
  locksStream : Bool := false

/-- A route handler. -/
def HandlerFn : Type := Ctx → HandlerOutcome

/-- isTypedResponse from src/src/contract.ts, on a handler result. -/
def isTypedResponse : HandlerRet → Bool
  | .typedResponse _ => true
  | .plain _ => false

/-- The implementation map: path pattern to method to handler. -/
def Impl : Type := List (String × List (String × HandlerFn))

/-- The `impl[pattern]?.[method]` lookup of handleRequest. -/
def implLookup (impl : Impl) (pattern method : String) : Option HandlerFn :=
  (lookupFirst impl pattern).bind (fun ms => lookupFirst ms method)

/-- The first-match scan of matchContractFailure over the flattened failure
members. -/
def findFailureSchema (error : ErrVal) :
    List ResponseSchema → Option ResponseSchema
  | [] => none
  | schema :: rest =>
      if isInst error schema.body then some schema
      else findFailureSchema error rest

/-- matchContractFailure from src/src/handler.ts: a non-object error never
matches; otherwise the first declared failure member whose error class the
error is an instance of wins, giving a TypedResponse of the error value at
the status of that member with empty headers. -/
def matchContractFailure (error : ErrVal)
    (failureSchema : Option AnyResponseSchema) : Option TypedResponse :=
  match failureSchema with
  | none => none
  | some fs =>
      if isObjectErr error then
        (findFailureSchema error (getResponseSchemas fs)).map
          (fun schema =>
            createTypedResponse (.json (errToJson error)) schema.status [])
      else none

/-- FetchHandlerOptions from src/src/handler.ts.  A user formatter is
foreign code: it may raise instead of returning, which the embedding records
as an `Except.error`. -/
structure FetchHandlerOptions where
  formatError : Option (ErrVal → Request → Except Unit ErrorResponse) := none

/-- `options.formatError ?? defaultFormatError` (the default formatter
always returns). -/
def formatErrorOf (options : FetchHandlerOptions) :
    ErrVal → Request → Except Unit ErrorResponse :=
  options.formatError.getD (fun e _ => .ok (defaultFormatError e))

/-- What a caller observes of one request: the produced wire response — or
the exception that escaped — and whether the request body stream got
canceled by the dispatcher. -/
structure HandleResult where
  response : Except Unit WireResponse
  streamCanceled : Bool

/-- The outcome of the Effect.gen block of handleRequest: its result and
whether the handler ran and left the stream locked. -/
structure ExecOut where
  result : Except ErrVal WireResponse
  handlerLocked : Bool

/-- The four input channels, combined as Effect.all combines them (any
failure surfaces as the single validation error of the first failing
channel in the listed order). -/
def decodeInputs (jsonParse : String → Option Json) (request : Request)
    (m : RouteMatch) :
    Except ErrVal
      (List (String × Json) × List (String × Json) ×
       List (String × Json) × BodyVal) := do
  let path ← parsePath m.params m.definition
  let query ← parseQuery request.query m.definition
  let headers ← parseHeaders request.headers m.definition
  let body ← parseBody jsonParse request m.definition
  pure (path, query, headers, body)

/-- The context value built inside the Effect.gen block. -/
def mkCtx (definition : RouteDefinition) (path query headers : List (String × Json))
    (body : BodyVal) : Ctx :=
  ⟨path, query, headers, body, createRespondFn definition⟩

/-- The Effect.gen block of handleRequest for a matched route with a found
handler: decode the channels, run the handler, serialize a TypedResponse
result or wrap a plain value into a 200 application/json response. -/
def execRoute (jsonParse : String → Option Json) (request : Request)
    (m : RouteMatch) (handlerFn : HandlerFn) : ExecOut :=
  match decodeInputs jsonParse request m with
  | .error e => ⟨.error e, false⟩
  | .ok (path, query, headers, body) =>
      let out := handlerFn (mkCtx m.definition path query headers body)
      match out.result with
      | .error e => ⟨.error e, out.locksStream⟩
      | .ok (.typedResponse t) =>
          ⟨.ok (serializeTypedResponse t), out.locksStream⟩
      | .ok (.plain v) =>
          ⟨.ok ⟨200, [("content-type", "application/json")], .json v⟩,
           out.locksStream⟩

/-- handleRequest from src/src/handler.ts.  Route matching resolves to the
method-not-allowed / not-found / handler-not-found formatter branches or to
the matched execution; on a matched route the onExit finalizer cancels a
still-unlocked request body stream exactly when the execution failed, and
Effect.catch first tries the declared-failure correlation, then the
formatter. -/
def handleRequest (jsonParse : String → Option Json) (request : Request)
    (routes : List CompiledRoute) (impl : Impl)
    (options : FetchHandlerOptions) : HandleResult :=
  let formatError := formatErrorOf options
  match matchRoute routes request.path request.method with
  | .noMatch (some allowedMethods) =>
      let error := ErrVal.methodNotAllowed
        ("Method " ++ request.method ++ " not allowed") allowedMethods
      match formatError error request with
      | .ok er =>
          ⟨.ok ⟨er.status,
                [("content-type", "application/json"),
                 ("allow", String.intercalate ", " allowedMethods)],
                .json er.body⟩, false⟩
      | .error u => ⟨.error u, false⟩
  | .noMatch none =>
      match formatError (ErrVal.notFound "Route not found") request with
      | .ok er =>
          ⟨.ok ⟨er.status, [("content-type", "application/json")],
                .json er.body⟩, false⟩
      | .error u => ⟨.error u, false⟩
  | .found m =>
      match implLookup impl m.route.pattern m.method with
      | none =>
          match formatError (ErrVal.notFound "Handler not found") request with
          | .ok er =>
              ⟨.ok ⟨er.status, [("content-type", "application/json")],
                    .json er.body⟩, false⟩
          | .error u => ⟨.error u, false⟩
      | some handlerFn =>
          let streamBody : Option Bool :=
            match m.definition.body with
            | some b => if isStreamBody b then request.bodyStream else none
            | none => none
          let out := execRoute jsonParse request m handlerFn
          let lockedAtExit :=
            match streamBody with
            | some initLocked => initLocked || out.handlerLocked
            | none => false
          let streamCanceled :=
            match out.result, streamBody with
            | .error _, some _ => !lockedAtExit
            | _, _ => false
          match out.result with
          | .ok resp => ⟨.ok resp, streamCanceled⟩
          | .error e =>
              match matchContractFailure e m.definition.failure with
              | some typed =>
                  ⟨.ok (serializeTypedResponse typed), streamCanceled⟩
              | none =>
                  match formatError e request with
                  | .ok er =>
                      ⟨.ok ⟨er.status,
                            [("content-type", "application/json")],
                            .json er.body⟩, streamCanceled⟩
                  | .error u => ⟨.error u, streamCanceled⟩

/-- FetchHandler.from from src/src/handler.ts: compile the contract once and
return the per-request function. -/
def FetchHandlerFrom (jsonParse : String → Option Json) (contract : Contract)
    (impl : Impl) (options : FetchHandlerOptions) : Request → HandleResult :=
  let routes := compileContract contract
  fun request => handleRequest jsonParse request routes impl options

/-! ## Concrete fixtures for counterexamples and witnesses -/

/-- A platform JSON parser stub for requests that never parse a body. -/
def jp0 : String → Option Json := fun _ => none

/-- The identity validator: accepts every value unchanged
(Schema.String on a string input). -/
def schOk : Sch := fun v => .ok v

/-- A validator that rejects every value, reporting it as the issue. -/
def schFail : Sch := fun v => .error v

/-- A plain success descriptor with the default 200 status. -/
def succ200 : AnyResponseSchema := .single ⟨.opaqueSchema 0, 200, []⟩

/-- A plain success descriptor with explicit status 201. -/
def succ201 : AnyResponseSchema := .single ⟨.opaqueSchema 0, 201, []⟩

/-- Claim C1 fixture: a contract whose only pattern carries a literal dot. -/
def c1Contract : Contract :=
  [("/api/v1.0/users", [("get", { success := succ200 })])]

/-- Claim C2 fixture: the /items/(id) route declaring a string path schema. -/
def c2Definition : RouteDefinition :=
  { path := some [("id", schOk)], success := succ200 }

def c2Contract : Contract := [("/items/\x7bid\x7d", [("get", c2Definition)])]

/-- A handler echoing its decoded path parameters as the response body. -/
def c2EchoHandler : HandlerFn := fun ctx => ⟨.ok (.plain (.obj ctx.path)), false⟩

def c2Impl : Impl := [("/items/\x7bid\x7d", [("get", c2EchoHandler)])]

/-- Claim C3 fixture: a route whose success descriptor declares status 201,
implemented by a handler returning a bare (non-TypedResponse) value. -/
def c3Definition : RouteDefinition := { success := succ201 }

def c3Contract : Contract := [("/c3", [("post", c3Definition)])]

def c3Handler : HandlerFn := fun _ => ⟨.ok (.plain (.num 7)), false⟩

def c3Impl : Impl := [("/c3", [("post", c3Handler)])]

def c3Request : Request := { path := "/c3", method := "POST" }

/-- A junk RouteMatch for total projections out of MatchResult. -/
def junkMatch : RouteMatch :=
  ⟨⟨"", [], [], [], []⟩, "", { success := succ200 }, []⟩

/-- Extract the RouteMatch of a found MatchResult. -/
def foundMatch : MatchResult → RouteMatch
  | .found m => m
  | .noMatch _ => junkMatch

/-- The RouteMatch produced for the C3 request. -/
def c3Match : RouteMatch :=
  foundMatch (matchRoute (compileContract c3Contract) "/c3" "POST")

/-- Claim C4 fixture: methods declared post-first, so that declaration
order and sorted order disagree. -/
def c4Contract : Contract :=
  [("/users", [("post", { success := succ200 }),
               ("get", { success := succ200 })])]

def c4Routes : List CompiledRoute := compileContract c4Contract

def c4Request : Request := { path := "/users", method := "DELETE" }

def c4NotFoundRequest : Request := { path := "/unknown", method := "GET" }

/-- Claim C5 fixture: a route declaring a failure union of two user error
classes at statuses 404 and 409, and handlers failing in both declared and
undeclared ways. -/
def c5Failure : AnyResponseSchema :=
  .union [⟨.classId 7, 404, []⟩, ⟨.classId 8, 409, []⟩]

def c5Definition : RouteDefinition :=
  { success := succ200, failure := some c5Failure }

def c5Contract : Contract := [("/c5", [("get", c5Definition)])]

/-- The declared error instance the C5 handler fails with. -/
def c5Error : ErrVal := .instObj 8 [("message", .str "conflict")]

/-- An error instance of a class not declared in the failure descriptor. -/
def c5Undeclared : ErrVal := .instObj 99 [("secret", .str "internals")]

def c5Handler : HandlerFn := fun _ => ⟨.error c5Error, false⟩

def c5Impl : Impl := [("/c5", [("get", c5Handler)])]

def c5Request : Request := { path := "/c5", method := "GET" }

def c5Match : RouteMatch :=
  foundMatch (matchRoute (compileContract c5Contract) "/c5" "GET")

/-- Claim C6 fixture: a user-supplied formatter that throws. -/
def throwingOptions : FetchHandlerOptions :=
  { formatError := some (fun _ _ => .error ()) }

def c6Request : Request := { path := "/nope", method := "GET" }

/-- Claim C7 fixture: a stream-body route with a failing handler that never
locks the stream, plus a succeeding handler. -/
def c7Definition : RouteDefinition :=
  { body := some .stream, success := succ200 }

def c7Contract : Contract := [("/upload", [("post", c7Definition)])]

def c7FailHandler : HandlerFn :=
  fun _ => ⟨.error (.instObj 41 [("message", .str "boom")]), false⟩

def c7OkHandler : HandlerFn := fun _ => ⟨.ok (.plain (.num 1)), false⟩

def c7FailImpl : Impl := [("/upload", [("post", c7FailHandler)])]

def c7OkImpl : Impl := [("/upload", [("post", c7OkHandler)])]

def c7Request : Request :=
  { path := "/upload", method := "POST", bodyStream := some false }

def c7Match : RouteMatch :=
  foundMatch (matchRoute (compileContract c7Contract) "/upload" "POST")

/-- Claim C9 fixture: a route declaring a JSON body schema. -/
def c9Definition : RouteDefinition :=
  { body := some (.sch schOk), success := succ200 }

/-- A toy platform JSON parser: recognizes two documents, rejects the rest. -/
def jpToy : String → Option Json := fun s =>
  if s = "7" then some (.num 7)
  else if s = "[]" then some (.arr [])
  else none

/-- A header-value entry is set (rather than dropped) by
serializeTypedResponse when it is neither undefined nor null. -/
def isSetEntry : JsVal → Bool
  | .undef => false
  | .json .null => false
  | _ => true

/-- The last header entry for a key that serializeTypedResponse actually
sets. -/
def lastSetEntry (entries : List (String × JsVal)) (key : String) :
    Option (String × JsVal) :=
  (entries.filter
    (fun p => toLowerStr p.1 == toLowerStr key && isSetEntry p.2)).getLast?

/-- Claim C10 fixture: an explicit 200 with a null body, one dropped and
one kept header entry. -/
def c10Typed : TypedResponse :=
  ⟨.json .null, 200,
   [("X-Null", .json .null), ("X-Kept", .json (.str "v")),
    ("X-Undef", .undef)]⟩

end Funcho


namespace Funcho

/-! ## Theorems -/

/-- The single compiled route of the C4 fixture. -/
def c4Route : CompiledRoute :=
  (compileContract c4Contract).headD ⟨"", [], [], [], []⟩

/-- A handler failing with an error of a class not declared in the C5
failure descriptor. -/
def c5UndeclaredHandler : HandlerFn := fun _ => ⟨.error c5Undeclared, false⟩

def c5UndeclaredImpl : Impl := [("/c5", [("get", c5UndeclaredHandler)])]


/-- Claim C1: the spec requires the compiled matcher to treat literal regex
metacharacters in static segments as literal characters, so that pattern
/api/v1.0/users rejects /api/v1X0/users.  The compilePattern of
src/src/router.ts performs no escaping, so the literal dot keeps its
regex meaning of any character: the request path /api/v1X0/users, which
substitutes X at the dot position, is accepted by the compiled matcher
(and the exact path is accepted too).  This contradicts the claim and the
repository router tests, which require the substituted path to be
rejected. -/
theorem compilePattern_dot_unescaped_matches_substituted_char :
    isRouteMatch
      (matchRoute (compileContract c1Contract) "/api/v1X0/users" "GET")
      = true ∧
    isRouteMatch
      (matchRoute (compileContract c1Contract) "/api/v1.0/users" "GET")
      = true :=
  ⟨rfl, rfl⟩

/-- Claim C2: the spec requires captured path-parameter substrings to be
percent-decoded before validation by default, with malformed
percent-escapes rejected as 400 validation errors.  The parsePath of
src/src/handler.ts performs no percent-decoding at all (and RouteDefinition
has no decodePath field): the captured substring hello%20world is validated
and delivered raw, and the malformed escape %ZZ passes straight through to
a 200 response instead of failing validation.  This contradicts the claim
and the repository handler tests. -/
theorem parsePath_passes_raw_percent_encoding_through :
    parsePath [("id", "hello%20world")] c2Definition
      = .ok [("id", .str "hello%20world")] ∧
    (handleRequest jp0 { path := "/items/%ZZ", method := "GET" }
        (compileContract c2Contract) c2Impl {}).response =
      .ok ⟨200, [("content-type", "application/json")],
           .json (.obj [("id", .str "%ZZ")])⟩ :=
  ⟨rfl, rfl⟩

/-- Claim C8: defaultFormatError maps the ValidationError, NotFoundError and
MethodNotAllowedError of the dispatcher to statuses 400, 404 and 405 with
an error/message JSON shape carrying the extra fields (issues for 400, the
allowed methods for 405), and maps every other error value — whatever user
class or primitive it is — to status 500 with the one generic
internal-error body, so nothing of the unrecognized error reaches the
client. -/
theorem default_format_error_status_mapping :
    (∀ message issues, defaultFormatError (.validation message issues) =
      ⟨400, .obj [("error", .str "ValidationError"),
                  ("message", .str message),
                  ("issues", .arr issues)]⟩) ∧
    (∀ message, defaultFormatError (.notFound message) =
      ⟨404, .obj [("error", .str "NotFoundError"),
                  ("message", .str message)]⟩) ∧
    (∀ message allowed, defaultFormatError (.methodNotAllowed message allowed) =
      ⟨405, .obj [("error", .str "MethodNotAllowedError"),
                  ("message", .str message),
                  ("allowed", .arr (allowed.map .str))]⟩) ∧
    (∀ c fields, defaultFormatError (.instObj c fields) =
      ⟨500, internalErrorBody⟩) ∧
    (∀ v, defaultFormatError (.primitive v) = ⟨500, internalErrorBody⟩) :=
  ⟨fun _ _ => rfl, fun _ => rfl, fun _ _ => rfl, fun _ _ => rfl, fun _ => rfl⟩


/-- Claim C9: for a route with a declared non-stream body schema, parseBody
decodes an empty request body to undefined; a non-empty body the JSON
parser rejects fails with the Invalid JSON body validation error, distinct
in message from the Invalid request body error produced when well-formed
JSON fails schema validation; and a successfully parsed JSON value is
validated against the declared body schema. -/
theorem parseBody_json_distinctions (jsonParse : String → Option Json)
    (request : Request) (definition : RouteDefinition) (schema : Sch)
    (hb : definition.body = some (.sch schema)) :
    (request.bodyText = "" →
      parseBody jsonParse request definition = .ok .undef) ∧
    (request.bodyText ≠ "" → jsonParse request.bodyText = none →
      parseBody jsonParse request definition =
        .error (.validation "Invalid JSON body" [])) ∧
    (∀ j, request.bodyText ≠ "" → jsonParse request.bodyText = some j →
      parseBody jsonParse request definition =
        (decodeSchemaE schema j "Invalid request body").map .jsonv) ∧
    (∀ j issue, request.bodyText ≠ "" → jsonParse request.bodyText = some j →
      schema j = .error issue →
      parseBody jsonParse request definition =
        .error (.validation "Invalid request body" [issue])) ∧
    "Invalid JSON body" ≠ "Invalid request body" := by
  refine ⟨?_, ?_, ?_, ?_, by decide⟩
  · intro h
    simp [parseBody, hb, h]
    intro hf
    exact absurd hf (by decide)
  · intro h1 h2
    have hE : request.bodyText.isEmpty = false := by
      rcases hE2 : request.bodyText.isEmpty with _ | _
      · rfl
      · exact absurd ((String.isEmpty_iff request.bodyText).mp hE2) h1
    simp [parseBody, hb, hE, h2]
  · intro j h1 h2
    have hE : request.bodyText.isEmpty = false := by
      rcases hE2 : request.bodyText.isEmpty with _ | _
      · rfl
      · exact absurd ((String.isEmpty_iff request.bodyText).mp hE2) h1
    simp [parseBody, hb, hE, h2]
  · intro j issue h1 h2 h3
    have hE : request.bodyText.isEmpty = false := by
      rcases hE2 : request.bodyText.isEmpty with _ | _
      · rfl
      · exact absurd ((String.isEmpty_iff request.bodyText).mp hE2) h1
    simp [parseBody, hb, hE, h2, decodeSchemaE, h3, Except.map]

/-- Witness for parseBody_json_distinctions: the body schema route of the
C9 fixture, exercised at an empty body, a body the toy parser rejects, and
a body it parses. -/
theorem parseBody_json_distinctions_witness :
    parseBody jpToy { path := "/", method := "POST" } c9Definition
      = .ok .undef ∧
    parseBody jpToy { path := "/", method := "POST", bodyText := "oops" }
        c9Definition
      = .error (.validation "Invalid JSON body" []) ∧
    parseBody jpToy { path := "/", method := "POST", bodyText := "7" }
        c9Definition
      = .ok (.jsonv (.num 7)) := by
  have h1 := (parseBody_json_distinctions jpToy
    { path := "/", method := "POST" } c9Definition schOk rfl).1 rfl
  have h2 := (parseBody_json_distinctions jpToy
    { path := "/", method := "POST", bodyText := "oops" } c9Definition schOk
    rfl).2.1 (by decide) rfl
  have h3 := ((parseBody_json_distinctions jpToy
    { path := "/", method := "POST", bodyText := "7" } c9Definition schOk
    rfl).2.2.1) (.num 7) (by decide) rfl
  exact ⟨h1, h2, by rw [h3]; rfl⟩


/-- buildHeaderStep as a conditional on whether the entry value is set. -/
theorem buildHeaderStep_eq (m : List (String × String)) (kv : String × JsVal) :
    buildHeaderStep m kv =
      if isSetEntry kv.2 then hset m kv.1 (jsString kv.2) else m := by
  rcases kv with ⟨k, v⟩
  cases v with
  | undef => rfl
  | stream => rfl
  | json j => cases j <;> rfl

theorem find?_hset_replace_eq (kl value : String)
    (m : List (String × String)) :
    List.find? (fun p => p.1 == kl)
      (m.map (fun p => if p.1 == kl then (kl, value) else p)) =
    if m.any (fun p => p.1 == kl) then some (kl, value) else none := by
  rw [List.find?_map]
  have hfun : ((fun p : String × String => p.1 == kl) ∘
      fun p : String × String => if p.1 == kl then (kl, value) else p) =
      fun p : String × String => p.1 == kl := by
    funext p
    by_cases hp : (p.1 == kl) = true
    · simp [Function.comp, hp]
    · simp only [Bool.not_eq_true] at hp
      simp [Function.comp, hp]
  rw [hfun]
  by_cases hAny : (m.any fun p => p.1 == kl) = true
  · rw [if_pos hAny]
    rcases hf : List.find? (fun p : String × String => p.1 == kl) m with _ | q
    · rw [List.find?_eq_none] at hf
      obtain ⟨x, hx, hpx⟩ := List.any_eq_true.mp hAny
      exact absurd hpx (hf x hx)
    · have hq : (q.1 == kl) = true := by
        have := List.find?_some hf
        simpa using this
      simp [Option.map, hq]
  · simp only [Bool.not_eq_true] at hAny
    simp only [hAny, Bool.false_eq_true, if_false]
    rcases hf : List.find? (fun p : String × String => p.1 == kl) m with _ | q
    · rfl
    · have hq : (q.1 == kl) = true := by
        have := List.find?_some hf
        simpa using this
      have : (m.any fun p => p.1 == kl) = true :=
        List.any_eq_true.mpr ⟨q, List.mem_of_find?_eq_some hf, hq⟩
      simp [hAny] at this

theorem find?_hset_replace_ne (kl k2l value : String) (h : ¬ kl = k2l)
    (m : List (String × String)) :
    List.find? (fun p => p.1 == k2l)
      (m.map (fun p => if p.1 == kl then (kl, value) else p)) =
    List.find? (fun p => p.1 == k2l) m := by
  rw [List.find?_map]
  have hfun : ((fun p : String × String => p.1 == k2l) ∘
      fun p : String × String => if p.1 == kl then (kl, value) else p) =
      fun p : String × String => p.1 == k2l := by
    funext p
    by_cases hp : (p.1 == kl) = true
    · have hpe : p.1 = kl := by simpa using hp
      have h1 : (kl == k2l) = false := beq_eq_false_iff_ne.mpr h
      simp [Function.comp, hp, hpe, h1]
    · simp only [Bool.not_eq_true] at hp
      simp [Function.comp, hp]
  rw [hfun]
  rcases hf : List.find? (fun p : String × String => p.1 == k2l) m with _ | q
  · rfl
  · have hq : (q.1 == k2l) = true := by
      have := List.find?_some hf
      simpa using this
    have hqe : q.1 = k2l := by simpa using hq
    have hne : (q.1 == kl) = false := by
      rw [hqe]
      exact beq_eq_false_iff_ne.mpr (fun hh => h hh.symm)
    simp [Option.map, hne]

theorem hget_hset (m : List (String × String)) (key value k2 : String) :
    hget (hset m key value) k2 =
      if toLowerStr key = toLowerStr k2 then some value else hget m k2 := by
  unfold hget hset
  by_cases hAny : m.any (fun p => p.1 == toLowerStr key) = true
  · simp only [hAny, if_true]
    by_cases hk : toLowerStr key = toLowerStr k2
    · rw [← hk, find?_hset_replace_eq, if_pos hAny]
      simp [hk]
    · rw [find?_hset_replace_ne _ _ _ hk]
      simp [hk]
  · simp only [Bool.not_eq_true] at hAny
    simp only [hAny, Bool.false_eq_true, if_false, List.find?_append]
    by_cases hk : toLowerStr key = toLowerStr k2
    · have hnone : List.find? (fun p => p.1 == toLowerStr k2) m = none := by
        rw [List.find?_eq_none]
        intro x hx hpx
        have : m.any (fun p => p.1 == toLowerStr key) = true :=
          List.any_eq_true.mpr ⟨x, hx, by rw [hk]; exact hpx⟩
        simp [hAny] at this
      rw [hnone]
      simp [List.find?_cons, hk]
    · have hne : (toLowerStr key == toLowerStr k2) = false := by
        simp [hk]
      simp [List.find?_cons, hne, hk]

theorem hhas_eq_isSome (m : List (String × String)) (k : String) :
    hhas m k = (hget m k).isSome := by
  unfold hhas hget
  induction m with
  | nil => rfl
  | cons p rest ih =>
    by_cases hp : (p.1 == toLowerStr k) = true
    · simp [List.find?_cons, hp]
    · simp only [Bool.not_eq_true] at hp
      simp [List.find?_cons, hp, ih]

theorem lastSetEntry_cons (p : String × JsVal)
    (rest : List (String × JsVal)) (k : String) :
    lastSetEntry (p :: rest) k =
      if toLowerStr p.1 == toLowerStr k && isSetEntry p.2 then
        some ((lastSetEntry rest k).getD p)
      else lastSetEntry rest k := by
  unfold lastSetEntry
  rw [List.filter_cons]
  by_cases hp : (toLowerStr p.1 == toLowerStr k && isSetEntry p.2) = true
  · simp [hp, List.getLast?_cons]
  · simp only [Bool.not_eq_true] at hp
    simp [hp]

theorem buildResponseHeaders_foldl (k : String)
    (entries : List (String × JsVal)) :
    ∀ m : List (String × String),
      hget (entries.foldl buildHeaderStep m) k =
        (match lastSetEntry entries k with
         | some q => some (jsString q.2)
         | none => hget m k) := by
  induction entries with
  | nil => intro m; simp [lastSetEntry]
  | cons p rest ih =>
    intro m
    rw [List.foldl_cons, buildHeaderStep_eq, lastSetEntry_cons]
    by_cases hs : isSetEntry p.2 = true
    · rw [if_pos hs, ih]
      by_cases hk : toLowerStr p.1 = toLowerStr k
      · have hb : (toLowerStr p.1 == toLowerStr k && isSetEntry p.2) = true := by
          simp [hk, hs]
        cases hrest : lastSetEntry rest k with
        | some q => simp [hb, hrest, hs, hk]
        | none => simp [hb, hrest, hget_hset, hk, hs]
      · have hb : (toLowerStr p.1 == toLowerStr k && isSetEntry p.2) = false := by
          simp [hk]
        cases hrest : lastSetEntry rest k with
        | some q => simp [hb, hrest, hk, hs]
        | none => simp [hb, hrest, hget_hset, hk, hs]
    · simp only [Bool.not_eq_true] at hs
      have hb : (toLowerStr p.1 == toLowerStr k && isSetEntry p.2) = false := by
        simp [hs]
      rw [if_neg (by simp [hs]), ih]
      simp [hb]

theorem buildResponseHeaders_hget (entries : List (String × JsVal))
    (k : String) :
    hget (buildResponseHeaders entries) k =
      (lastSetEntry entries k).map (fun q => jsString q.2) := by
  unfold buildResponseHeaders
  rw [buildResponseHeaders_foldl]
  cases lastSetEntry entries k <;> simp [hget]


/-- Claim C10: serializing a TypedResponse whose body is undefined or null
produces a wire response with an empty body, the explicitly chosen status
unchanged (a 200 with an empty body stays 200) and exactly the processed
header entries, so no Content-Type is added; and the processed entries are
characterized by: a lookup finds the stringified value of the last entry
for that key whose value is neither undefined nor null, and a key is
present precisely when such an entry exists (entries with undefined or null
values are dropped). -/
theorem serialize_null_body_and_header_policy (typed : TypedResponse)
    (hbody : typed.body = .undef ∨ typed.body = .json .null) :
    serializeTypedResponse typed =
      ⟨typed.status, buildResponseHeaders typed.headers, .empty⟩ ∧
    (∀ k, hget (buildResponseHeaders typed.headers) k =
      (lastSetEntry typed.headers k).map (fun q => jsString q.2)) ∧
    (∀ k, hhas (buildResponseHeaders typed.headers) k =
      (lastSetEntry typed.headers k).isSome) := by
  refine ⟨?_, fun k => buildResponseHeaders_hget _ _, fun k => ?_⟩
  · rcases hbody with h | h <;> simp [serializeTypedResponse, h]
  · rw [hhas_eq_isSome, buildResponseHeaders_hget]
    cases lastSetEntry typed.headers k <;> rfl

/-- Witness for serialize_null_body_and_header_policy: an explicit 200 with
a null body keeps status 200 with an empty body, drops the null and
undefined header entries, keeps the string entry, and carries no
Content-Type. -/
theorem serialize_null_body_and_header_policy_witness :
    serializeTypedResponse c10Typed = ⟨200, [("x-kept", "v")], .empty⟩ ∧
    hhas (buildResponseHeaders c10Typed.headers) "Content-Type" = false := by
  have h := serialize_null_body_and_header_policy c10Typed (Or.inr rfl)
  refine ⟨?_, ?_⟩
  · rw [h.1]
    have hb : buildResponseHeaders c10Typed.headers = [("x-kept", "v")] := by
      simp [buildResponseHeaders, buildHeaderStep, hset, jsString, jsStringJ,
        c10Typed, toLowerStr]
    rw [hb]
    rfl
  · rw [h.2.2 "Content-Type"]
    rfl


/-- The matchRoute scan reports plain not-found when no compiled regex
accepts the path. -/
theorem matchRouteGo_all_none (pathname method : String)
    (routes : List CompiledRoute)
    (h : ∀ r ∈ routes, regexExec r.toks pathname = none) :
    matchRouteGo pathname method routes = .noMatch none := by
  induction routes with
  | nil => rfl
  | cons r rest ih =>
    have hr := h r (List.mem_cons_self r rest)
    simp only [matchRouteGo, hr]
    exact ih (fun q hq => h q (List.mem_cons_of_mem _ hq))

/-- The matchRoute scan stops at the first path-accepting route and, when
that route lacks the method, reports its method list. -/
theorem matchRouteGo_method_not_allowed (pathname method : String)
    (pre post : List CompiledRoute) (route : CompiledRoute)
    (params : List (String × String))
    (hpre : ∀ r ∈ pre, regexExec r.toks pathname = none)
    (hroute : regexExec route.toks pathname = some params)
    (hmethod : lookupFirst route.definitions method = none) :
    matchRouteGo pathname method (pre ++ route :: post) =
      .noMatch (some route.methods) := by
  induction pre with
  | nil =>
    simp only [List.nil_append, matchRouteGo, hroute, hmethod]
  | cons r rest ih =>
    have hr := hpre r (List.mem_cons_self r rest)
    simp only [List.cons_append, matchRouteGo, hr]
    exact ih (fun q hq => hpre q (List.mem_cons_of_mem _ hq))

/-- Claim C3 (amended): a handler that returns a plain value — not a
TypedResponse — always produces a JSON success response with that value as
body, status fixed at 200 and a lone application/json Content-Type header,
whatever the success descriptor declares; the descriptor default status
(getDefaultStatus) is honored only by the respond helper, so the claim
holds as stated exactly when that default is 200. -/
theorem plain_value_yields_status_200_json
    (jsonParse : String → Option Json) (request : Request)
    (routes : List CompiledRoute) (impl : Impl)
    (options : FetchHandlerOptions) (m : RouteMatch) (handlerFn : HandlerFn)
    (p q hs : List (String × Json)) (b : BodyVal) (v : Json) (lk : Bool)
    (hm : matchRoute routes request.path request.method = .found m)
    (hi : implLookup impl m.route.pattern m.method = some handlerFn)
    (hd : decodeInputs jsonParse request m = .ok (p, q, hs, b))
    (hh : handlerFn (mkCtx m.definition p q hs b) = ⟨.ok (.plain v), lk⟩) :
    (handleRequest jsonParse request routes impl options).response =
      .ok ⟨200, [("content-type", "application/json")], .json v⟩ := by
  have hout : execRoute jsonParse request m handlerFn =
      ⟨.ok ⟨200, [("content-type", "application/json")], .json v⟩, lk⟩ := by
    unfold execRoute
    rw [hd]
    simp [hh]
  unfold handleRequest
  simp only [hm, hi, hout]

/-- Witness for plain_value_yields_status_200_json at the C3 fixture. -/
theorem plain_value_yields_status_200_json_witness :
    (handleRequest jp0 c3Request (compileContract c3Contract) c3Impl
      {}).response =
      .ok ⟨200, [("content-type", "application/json")], .json (.num 7)⟩ :=
  plain_value_yields_status_200_json jp0 c3Request (compileContract c3Contract)
    c3Impl {} c3Match c3Handler [] [] [] .undef (.num 7) false rfl rfl rfl rfl

/-- Claim C3 counterexample: the C3 route declares default status 201, yet
the bare-value response carries status 200, so the response status is not
the success descriptor default status. -/
theorem plain_value_ignores_descriptor_default_status :
    getDefaultStatus c3Definition.success = 201 ∧
    (handleRequest jp0 c3Request (compileContract c3Contract) c3Impl
      {}).response =
      .ok ⟨200, [("content-type", "application/json")], .json (.num 7)⟩ ∧
    (200 : Nat) ≠ 201 :=
  ⟨rfl, rfl, by decide⟩

/-- Claim C4 (amended): a request whose path matches no compiled route
yields the plain not-found result without allowedMethods and a 404
response with no Allow header; a request whose path first matches a route
with no definition for the lower-cased method yields the
method-not-allowed result whose allowedMethods is the list of methods of
that route in contract declaration order — not sorted — echoed
comma-space-joined in the Allow header of the 405 response. -/
theorem not_found_vs_method_not_allowed
    (jsonParse : String → Option Json) (request : Request)
    (routes pre post : List CompiledRoute) (route : CompiledRoute)
    (params : List (String × String)) (impl : Impl) :
    ((∀ r ∈ routes, regexExec r.toks request.path = none) →
      matchRoute routes request.path request.method = .noMatch none ∧
      (handleRequest jsonParse request routes impl {}).response =
        .ok ⟨404, [("content-type", "application/json")],
             .json (.obj [("error", .str "NotFoundError"),
                          ("message", .str "Route not found")])⟩ ∧
      hget [("content-type", "application/json")] "Allow" = none) ∧
    (routes = pre ++ route :: post →
     (∀ r ∈ pre, regexExec r.toks request.path = none) →
     regexExec route.toks request.path = some params →
     lookupFirst route.definitions (toLowerStr request.method) = none →
      matchRoute routes request.path request.method =
        .noMatch (some route.methods) ∧
      (handleRequest jsonParse request routes impl {}).response =
        .ok ⟨405, [("content-type", "application/json"),
                   ("allow", String.intercalate ", " route.methods)],
             .json (.obj
               [("error", .str "MethodNotAllowedError"),
                ("message",
                  .str ("Method " ++ request.method ++ " not allowed")),
                ("allowed", .arr (route.methods.map .str))])⟩) := by
  constructor
  · intro hnone
    have hmr : matchRoute routes request.path request.method =
        .noMatch none :=
      matchRouteGo_all_none request.path (toLowerStr request.method)
        routes hnone
    refine ⟨hmr, ?_, rfl⟩
    unfold handleRequest
    rw [hmr]
    rfl
  · intro heq hpre hroute hmethod
    have hmr : matchRoute routes request.path request.method =
        .noMatch (some route.methods) := by
      rw [heq]
      exact matchRouteGo_method_not_allowed request.path
        (toLowerStr request.method) pre post route params hpre hroute hmethod
    refine ⟨hmr, ?_⟩
    unfold handleRequest
    rw [hmr]
    rfl

/-- Witness for not_found_vs_method_not_allowed at the C4 fixture. -/
theorem not_found_vs_method_not_allowed_witness :
    matchRoute c4Routes "/unknown" "GET" = .noMatch none ∧
    matchRoute c4Routes "/users" "DELETE" = .noMatch (some c4Route.methods) := by
  have hlist : c4Routes = [c4Route] := rfl
  constructor
  · have hall : ∀ r ∈ c4Routes, regexExec r.toks c4NotFoundRequest.path = none := by
      intro r hr
      rw [hlist] at hr
      rw [List.mem_singleton.mp hr]
      rfl
    exact ((not_found_vs_method_not_allowed jp0 c4NotFoundRequest c4Routes
      [] [] c4Route [] [] ).1 hall).1
  · have h := ((not_found_vs_method_not_allowed jp0 c4Request c4Routes
      [] [] c4Route [] [] ).2 hlist
      (fun r hr => absurd hr (List.not_mem_nil r)) rfl rfl).1
    exact h

/-- Claim C4 counterexample: with methods declared post-first, the
allowedMethods of a DELETE to /users is the declaration-order list
["post", "get"], which is not the sorted list, and Allow reads
"post, get" rather than "get, post". -/
theorem allowed_methods_declaration_order_not_sorted :
    matchRoute c4Routes "/users" "DELETE" = .noMatch (some ["post", "get"]) ∧
    (handleRequest jp0 c4Request c4Routes [] {}).response =
      .ok ⟨405, [("content-type", "application/json"), ("allow", "post, get")],
           .json (.obj [("error", .str "MethodNotAllowedError"),
                        ("message", .str "Method DELETE not allowed"),
                        ("allowed", .arr [.str "post", .str "get"])])⟩ ∧
    ["post", "get"] ≠ ["get", "post"] :=
  ⟨rfl, rfl, by decide⟩


/-- An object error serializes to a JSON object of its fields. -/
theorem errToJson_obj (e : ErrVal) (h : isObjectErr e = true) :
    ∃ fields, errToJson e = .obj fields := by
  cases e with
  | validation message issues => exact ⟨_, rfl⟩
  | notFound message => exact ⟨_, rfl⟩
  | methodNotAllowed message allowed => exact ⟨_, rfl⟩
  | instObj c fields => exact ⟨fields, rfl⟩
  | primitive v => exact absurd h (by simp [isObjectErr])

/-- Claim C5: when the execution of a matched route fails with an error
value that is an instance of a declared failure member class, the first
matching member of the flattened failure descriptor determines the
response: its declared status with the JSON-serialized error value as
body; when no declared member matches — which is in particular the path
validation errors from decoding take, since decode failures surface as
execution failures here — the default formatter determines the response,
yielding status 500 with the generic body for unrecognized errors. -/
theorem failure_correlation_first_match_or_formatter
    (jsonParse : String → Option Json) (request : Request)
    (routes : List CompiledRoute) (impl : Impl)
    (m : RouteMatch) (handlerFn : HandlerFn) (e : ErrVal)
    (hm : matchRoute routes request.path request.method = .found m)
    (hi : implLookup impl m.route.pattern m.method = some handlerFn)
    (hex : (execRoute jsonParse request m handlerFn).result = .error e) :
    (∀ fs schema, m.definition.failure = some fs →
      isObjectErr e = true →
      findFailureSchema e (getResponseSchemas fs) = some schema →
      (handleRequest jsonParse request routes impl {}).response =
        .ok ⟨schema.status, [("content-type", "application/json")],
             .json (errToJson e)⟩) ∧
    (matchContractFailure e m.definition.failure = none →
      (handleRequest jsonParse request routes impl {}).response =
        .ok ⟨(defaultFormatError e).status,
             [("content-type", "application/json")],
             .json (defaultFormatError e).body⟩) := by
  constructor
  · intro fs schema hfs hobj hfind
    have hmc : matchContractFailure e m.definition.failure =
        some (createTypedResponse (.json (errToJson e)) schema.status []) := by
      unfold matchContractFailure
      rw [hfs]
      simp [hobj, hfind]
    obtain ⟨fields, hf⟩ := errToJson_obj e hobj
    have hser : serializeTypedResponse
        (createTypedResponse (.json (errToJson e)) schema.status []) =
        ⟨schema.status, [("content-type", "application/json")],
         .json (errToJson e)⟩ := by
      rw [hf]
      rfl
    unfold handleRequest
    simp only [hm, hi, hex, hmc, hser]
  · intro hmc
    unfold handleRequest
    simp only [hm, hi, hex, hmc]
    rfl

/-- Witness for failure_correlation_first_match_or_formatter at the C5
fixture: the declared class-8 failure lands on the 409 member with the
error fields as body; the undeclared class-99 failure falls through to the
default formatter and yields the generic 500. -/
theorem failure_correlation_witness :
    (handleRequest jp0 c5Request (compileContract c5Contract) c5Impl
      {}).response =
      .ok ⟨409, [("content-type", "application/json")],
           .json (.obj [("message", .str "conflict")])⟩ ∧
    (handleRequest jp0 c5Request (compileContract c5Contract)
      c5UndeclaredImpl {}).response =
      .ok ⟨500, [("content-type", "application/json")],
           .json internalErrorBody⟩ := by
  constructor
  · exact (failure_correlation_first_match_or_formatter jp0 c5Request
      (compileContract c5Contract) c5Impl c5Match c5Handler c5Error
      rfl rfl rfl).1 c5Failure ⟨.classId 8, 409, []⟩ rfl rfl rfl
  · exact (failure_correlation_first_match_or_formatter jp0 c5Request
      (compileContract c5Contract) c5UndeclaredImpl c5Match
      c5UndeclaredHandler c5Undeclared rfl rfl rfl).2 rfl

/-- Claim C6 counterexample: a user-supplied formatError that throws makes
the fetch handler produced by FetchHandler.from raise instead of producing
a Response: at a request matching no route the dispatcher calls the
formatter outside any try/catch, so the exception escapes to the caller. -/
theorem throwing_format_error_escapes_dispatcher :
    (FetchHandlerFrom jp0 [] [] throwingOptions c6Request).response =
      .error () := rfl

/-- Claim C6 (amended): the fetch handler produced by FetchHandler.from
always produces a Response — across route-match failure, input-decode
failure and handler failure with an arbitrary error value — provided the
formatter in effect returns normally on every error; an exception thrown
by a user-supplied formatError instead propagates to the caller. -/
theorem dispatcher_total_when_formatter_returns
    (jsonParse : String → Option Json) (contract : Contract) (impl : Impl)
    (options : FetchHandlerOptions) (request : Request)
    (hfmt : ∀ e r, ∃ er, formatErrorOf options e r = .ok er) :
    ∃ resp, (FetchHandlerFrom jsonParse contract impl options
      request).response = .ok resp := by
  show ∃ resp, (handleRequest jsonParse request (compileContract contract)
    impl options).response = .ok resp
  unfold handleRequest
  cases hmr : matchRoute (compileContract contract) request.path
      request.method with
  | noMatch allowed =>
    cases allowed with
    | some a =>
      obtain ⟨er, her⟩ := hfmt (ErrVal.methodNotAllowed
        ("Method " ++ request.method ++ " not allowed") a) request
      simp only [her]
      exact ⟨_, rfl⟩
    | none =>
      obtain ⟨er, her⟩ := hfmt (ErrVal.notFound "Route not found") request
      simp only [her]
      exact ⟨_, rfl⟩
  | found m =>
    cases hil : implLookup impl m.route.pattern m.method with
    | none =>
      obtain ⟨er, her⟩ := hfmt (ErrVal.notFound "Handler not found") request
      simp only [hil, her]
      exact ⟨_, rfl⟩
    | some handlerFn =>
      cases hout : (execRoute jsonParse request m handlerFn).result with
      | ok resp =>
        refine ⟨resp, ?_⟩
        simp only [hil, hout]
      | error e =>
        cases hmc : matchContractFailure e m.definition.failure with
        | some typed =>
          exact ⟨serializeTypedResponse typed, by simp only [hil, hout, hmc]⟩
        | none =>
          obtain ⟨er, her⟩ := hfmt e request
          exact ⟨⟨er.status, [("content-type", "application/json")],
            .json er.body⟩, by simp only [hil, hout, hmc, her]⟩

/-- Witness for dispatcher_total_when_formatter_returns: with the default
formatter the dispatcher produces a Response for a request matching no
route. -/
theorem dispatcher_total_when_formatter_returns_witness :
    ∃ resp, (FetchHandlerFrom jp0 [] [] {} c6Request).response = .ok resp :=
  dispatcher_total_when_formatter_returns jp0 [] [] {} c6Request
    (fun e _ => ⟨defaultFormatError e, rfl⟩)

/-- Claim C7: for a matched route declaring the stream body schema, with a
body stream attached to the request: when the execution succeeds the
stream is never canceled; when it fails the stream is canceled exactly
when it is unlocked at exit — neither locked by the caller beforehand nor
locked by the handler — so a failure with the stream already consumed or
locked leaves it alone. -/
theorem stream_canceled_iff_failure_and_unlocked
    (jsonParse : String → Option Json) (request : Request)
    (routes : List CompiledRoute) (impl : Impl)
    (options : FetchHandlerOptions)
    (m : RouteMatch) (handlerFn : HandlerFn) (initLocked : Bool)
    (hm : matchRoute routes request.path request.method = .found m)
    (hi : implLookup impl m.route.pattern m.method = some handlerFn)
    (hbody : m.definition.body = some .stream)
    (hstream : request.bodyStream = some initLocked) :
    ((execRoute jsonParse request m handlerFn).result.isOk = true →
      (handleRequest jsonParse request routes impl
        options).streamCanceled = false) ∧
    (∀ e, (execRoute jsonParse request m handlerFn).result = .error e →
      (handleRequest jsonParse request routes impl
        options).streamCanceled =
        !(initLocked ||
          (execRoute jsonParse request m handlerFn).handlerLocked)) := by
  constructor
  · intro hok
    unfold handleRequest
    cases hout : (execRoute jsonParse request m handlerFn).result with
    | ok resp => simp only [hm, hi, hbody, hstream, hout, isStreamBody]
    | error e =>
      rw [hout] at hok
      exact Bool.noConfusion hok
  · intro e hout
    unfold handleRequest
    simp only [hm, hi, hbody, hstream, hout, isStreamBody]
    cases hmc : matchContractFailure e m.definition.failure with
    | some typed => simp only [hmc, if_true]
    | none =>
      simp only [hmc]
      cases hfe : formatErrorOf options e request with
      | ok er => simp only [hfe, if_true]
      | error u => simp only [hfe, if_true]

/-- Witness for stream_canceled_iff_failure_and_unlocked at the C7
fixture: the failing handler leaves the unlocked stream canceled, the
succeeding handler leaves it uncanceled. -/
theorem stream_canceled_witness :
    (handleRequest jp0 c7Request (compileContract c7Contract) c7FailImpl
      {}).streamCanceled = true ∧
    (handleRequest jp0 c7Request (compileContract c7Contract) c7OkImpl
      {}).streamCanceled = false := by
  constructor
  · exact (stream_canceled_iff_failure_and_unlocked jp0 c7Request
      (compileContract c7Contract) c7FailImpl {} c7Match c7FailHandler false
      rfl rfl rfl rfl).2 (.instObj 41 [("message", .str "boom")]) rfl
  · exact (stream_canceled_iff_failure_and_unlocked jp0 c7Request
      (compileContract c7Contract) c7OkImpl {} c7Match c7OkHandler false
      rfl rfl rfl rfl).1 rfl

end Funcho
